import Mathlib

/-!
Verification development for the download-orchestration subsystem of the
tg-bot repository.  The Python sources under `src/` are shallowly embedded:

* `bot_app/state.py` — the in-memory shared state (pending-token map,
  per-actor active counters, last-request timestamps);
* `bot_app/handlers/callbacks.py` — `handle_download_callback`, the token
  confirmation path;
* `bot_app/handlers/downloads.py` — `_process_download_flow`, the direct /
  group message path;
* `bot_app/maintenance.py` — the background sweeper;
* `bot_app/admin_runtime.py` — administrative cancel / drop / flush;
* `bot_app/runtime.py` — the global download semaphore;
* `utils/downloader.py` — `download_video`, `_download_once` and the
  Instagram cookie-refresh retry;
* `services/video_cache.py` — `VideoCache._prune_if_needed` / `store`;
* `services/alerts.py` — `record_alert` / `resolve_alert`.

Wall-clock instants and durations are embedded as integers (`Int`); Python
dictionaries are embedded as association lists whose update semantics match
dict assignment (overwrite in place, unique keys by construction of the
operations).
-/

namespace TgBot

/-- Association-list lookup, mirroring Python `dict.get(k)` /
`dict.get(k, default)` (the default is applied by callers). -/
def alGet {α β : Type} [DecidableEq α] (m : List (α × β)) (k : α) : Option β :=
  (m.find? (fun kv => kv.1 = k)).map (·.2)

/-- Association-list update, mirroring Python `d[k] = v` (overwrites any
previous binding for `k`). -/
def alSet {α β : Type} [DecidableEq α] (m : List (α × β)) (k : α) (v : β) :
    List (α × β) :=
  (k, v) :: m.filter (fun kv => kv.1 ≠ k)

/-- Association-list removal, mirroring Python `d.pop(k, None)` (the state
part; the returned value is `alGet`). -/
def alPop {α β : Type} [DecidableEq α] (m : List (α × β)) (k : α) :
    List (α × β) :=
  m.filter (fun kv => kv.1 ≠ k)

theorem find?_filter_of_imp {α : Type} (p q : α → Bool)
    (h : ∀ x, p x = true → q x = true) :
    ∀ l : List α, (l.filter q).find? p = l.find? p := by
  intro l
  induction l with
  | nil => rfl
  | cons x xs ih =>
    by_cases hq : q x = true
    · rw [List.filter_cons_of_pos hq]
      by_cases hp : p x = true
      · rw [List.find?_cons_of_pos _ hp, List.find?_cons_of_pos _ hp]
      · rw [List.find?_cons_of_neg _ hp, List.find?_cons_of_neg _ hp, ih]
    · have hp : ¬ p x = true := fun hpx => hq (h x hpx)
      rw [List.filter_cons_of_neg hq, ih, List.find?_cons_of_neg _ hp]

theorem alGet_alPop_self {α β : Type} [DecidableEq α]
    (m : List (α × β)) (k : α) : alGet (alPop m k) k = none := by
  simp only [alGet, alPop, Option.map_eq_none', List.find?_eq_none]
  intro kv hkv
  simp only [List.mem_filter, ne_eq, decide_not, Bool.not_eq_true',
    decide_eq_false_iff_not] at hkv
  simpa using hkv.2

theorem alGet_alSet_ne {α β : Type} [DecidableEq α]
    (m : List (α × β)) (k k' : α) (v : β) (h : k ≠ k') :
    alGet (alSet m k v) k' = alGet m k' := by
  simp only [alGet, alSet]
  rw [List.find?_cons_of_neg]
  · rw [find?_filter_of_imp]
    intro x hx
    simp only [decide_eq_true_eq] at hx
    simp [hx, Ne.symm h]
  · simp [h]

theorem alGet_alPop_ne {α β : Type} [DecidableEq α]
    (m : List (α × β)) (k k' : α) (h : k ≠ k') :
    alGet (alPop m k) k' = alGet m k' := by
  simp only [alGet, alPop]
  rw [find?_filter_of_imp]
  intro x hx
  simp only [decide_eq_true_eq] at hx
  simp [hx, Ne.symm h]

/-! ## Pending-token store (`bot_app/state.py`, `handlers`, sweeper, admin)

`state.pending_downloads : Dict[str, payload]` with payloads minted in
`_process_download_flow` as
`\x7b"url": url, "initiator_id": uid, "ts": time.time(), ...\x7d`.
`state.PENDING_TOKEN_TTL = 10 * 60` seconds. -/

/-- `PENDING_TOKEN_TTL = 10 * 60` from `bot_app/state.py`. -/
def PENDING_TOKEN_TTL : Int := 10 * 60

/-- Payload stored in `state.pending_downloads` when
`_process_download_flow` mints a token for a group chat. -/
structure PendingEntry where
  url : String
  initiatorId : Int
  ts : Int
  sourceChatId : Int
  sourceMessageId : Int
  deriving Repr, DecidableEq

/-- The pending-downloads map: token → payload. -/
abbrev PendingStore := List (String × PendingEntry)

/-- Outcome of the token-consumption prefix of `handle_download_callback`
(`callbacks.py` lines 149–158). -/
inductive ConfirmOutcome where
  | notFound
  | expired
  | confirmed (e : PendingEntry)
  deriving Repr, DecidableEq

/-- Lines 149–158 of `callbacks.py`:
`entry = state.pending_downloads.pop(token, None)`; answer "pending_missing"
when absent; answer "pending_expired" when
`time.time() - entry.get("ts", 0) > state.PENDING_TOKEN_TTL`; otherwise the
entry is handed to the rest of the handler. -/
def confirmStep (token : String) (now : Int) (s : PendingStore) :
    ConfirmOutcome × PendingStore :=
  match alGet s token with
  | none => (.notFound, s)
  | some e =>
    let s' := alPop s token
    if now - e.ts > PENDING_TOKEN_TTL then (.expired, s')
    else (.confirmed e, s')

/-- Minting in `_process_download_flow` (downloads.py lines 205–212):
`state.pending_downloads[token] = \x7b...\x7d`. -/
def mintToken (token : String) (e : PendingEntry) (s : PendingStore) :
    PendingStore :=
  alSet s token e

/-- `_purge_pending` from `bot_app/maintenance.py`: drop every token with
`now - issued_at > ttl`. -/
def purgePending (now : Int) (s : PendingStore) : PendingStore :=
  s.filter (fun kv => ¬ (now - kv.2.ts > PENDING_TOKEN_TTL))

/-- `drop_pending_token` from `bot_app/admin_runtime.py`:
`state.pending_downloads.pop(token, None)`. -/
def dropPendingToken (token : String) (s : PendingStore) : PendingStore :=
  alPop s token

/-- `flush_pending_tokens` from `bot_app/admin_runtime.py`:
`state.pending_downloads.clear()`. -/
def flushPendingTokens (_s : PendingStore) : PendingStore :=
  []

/-- Operations that touch the pending-token map anywhere in the program. -/
inductive PendingOp where
  | mint (token : String) (e : PendingEntry)
  | confirm (token : String) (now : Int)
  | purge (now : Int)
  | drop (token : String)
  | flush
  deriving Repr, DecidableEq

/-- State effect of one operation on the pending map. -/
def PendingOp.apply (op : PendingOp) (s : PendingStore) : PendingStore :=
  match op with
  | .mint t e => mintToken t e s
  | .confirm t now => (confirmStep t now s).2
  | .purge now => purgePending now s
  | .drop t => dropPendingToken t s
  | .flush => flushPendingTokens s

/-- Effect of a sequence of operations, applied left to right. -/
def applyPendingOps (ops : List PendingOp) (s : PendingStore) : PendingStore :=
  ops.foldl (fun st op => op.apply st) s

/-- `op` re-inserts token `t` (only minting ever inserts). -/
def PendingOp.mints (op : PendingOp) (t : String) : Prop :=
  ∃ e, op = .mint t e

instance (op : PendingOp) (t : String) : Decidable (op.mints t) := by
  cases op with
  | mint t' e =>
    by_cases h : t' = t
    · subst h; exact isTrue ⟨e, rfl⟩
    · exact isFalse (by rintro ⟨e', he⟩; cases he; exact h rfl)
  | confirm t' now => exact isFalse (by rintro ⟨e', he⟩; cases he)
  | purge now => exact isFalse (by rintro ⟨e', he⟩; cases he)
  | drop t' => exact isFalse (by rintro ⟨e', he⟩; cases he)
  | flush => exact isFalse (by rintro ⟨e', he⟩; cases he)

theorem confirmStep_absent {t : String} {now : Int} {s : PendingStore}
    (h : alGet s t = none) : confirmStep t now s = (.notFound, s) := by
  simp [confirmStep, h]

theorem confirmStep_pops {t : String} {now : Int} {s : PendingStore}
    {e : PendingEntry} (h : alGet s t = some e) :
    alGet (confirmStep t now s).2 t = none := by
  simp only [confirmStep, h]
  by_cases hc : now - e.ts > PENDING_TOKEN_TTL
  · simp [hc, alGet_alPop_self]
  · simp [hc, alGet_alPop_self]

/-- Every operation that does not mint `t` preserves `t`'s absence. -/
theorem PendingOp.apply_preserves_absent
    (op : PendingOp) (t : String) (s : PendingStore)
    (hop : ¬ op.mints t) (habs : alGet s t = none) :
    alGet (op.apply s) t = none := by
  cases op with
  | mint t' e =>
    have hne : t' ≠ t := by
      intro h; exact hop ⟨e, by rw [h]⟩
    have := (alGet_alSet_ne s t' t e hne).trans habs
    simpa [PendingOp.apply, mintToken] using this
  | confirm t' now =>
    by_cases hteq : t' = t
    · subst hteq
      simp only [PendingOp.apply, confirmStep, habs]
    · simp only [PendingOp.apply, confirmStep]
      cases hget : alGet s t' with
      | none => simpa using habs
      | some e =>
        by_cases hc : now - e.ts > PENDING_TOKEN_TTL
        · simpa [hc] using (alGet_alPop_ne s t' t hteq).trans habs
        · simpa [hc] using (alGet_alPop_ne s t' t hteq).trans habs
  | purge now =>
    simp only [PendingOp.apply, purgePending, alGet, Option.map_eq_none',
      List.find?_eq_none] at habs ⊢
    intro kv hkv
    exact habs kv (List.mem_of_mem_filter hkv)
  | drop t' =>
    by_cases hteq : t' = t
    · subst hteq
      simpa [PendingOp.apply, dropPendingToken] using alGet_alPop_self s t'
    · simpa [PendingOp.apply, dropPendingToken] using
        (alGet_alPop_ne s t' t hteq).trans habs
  | flush =>
    simp [PendingOp.apply, flushPendingTokens, alGet]

theorem applyPendingOps_preserves_absent
    (ops : List PendingOp) (t : String) (s : PendingStore)
    (hops : ∀ op ∈ ops, ¬ op.mints t) (habs : alGet s t = none) :
    alGet (applyPendingOps ops s) t = none := by
  induction ops generalizing s with
  | nil => simpa [applyPendingOps] using habs
  | cons op rest ih =>
    simp only [applyPendingOps, List.foldl_cons]
    exact ih (op.apply s)
      (fun o ho => hops o (List.mem_cons_of_mem op ho))
      (op.apply_preserves_absent t s (hops op (List.mem_cons_self op rest)) habs)

/-! ## Admission flows

`_process_download_flow` (`bot_app/handlers/downloads.py`) and
`handle_download_callback` (`bot_app/handlers/callbacks.py`), embedded up to
the point where the download itself starts (`started`).  Every earlier
`return` of the Python code is a distinct outcome constructor. -/

/-- The configuration knobs consulted by the two admission flows
(`config.py` attributes, with the `getattr` defaults from the handlers). -/
structure BotConfig where
  maxConcurrentPerUser : Int
  userCooldownSeconds : Int
  callbackChatCooldownSeconds : Int
  callbackGlobalMaxCalls : Int
  callbackGlobalWindowSeconds : Int
  deriving Repr, DecidableEq

/-- The shared mutable state of `bot_app/state.py` used by the flows. -/
structure BotState where
  userLastRequestTs : List (Int × Int)
  userActiveDownloads : List (Int × Int)
  chatLastCallbackTs : List (Int × Int)
  globalCallbackEvents : List Int
  pendingDownloads : PendingStore
  deriving Repr, DecidableEq

/-- Results of the external collaborators consulted before admission:
`is_user_allowed`, `ensure_safe_public_url`, `detect_platform`, and the
externally computed quota verdict (`build_enforcement_plan(...)["blocked"]`). -/
structure FlowEnv where
  userAllowed : Bool
  urlSafe : Bool
  platform : Option String
  quotaBlocked : Bool
  deriving Repr, DecidableEq

/-- Every early-return outcome of the two admission flows. -/
inductive FlowOutcome where
  | deniedAccess
  | blockedUrl
  | unsupportedPlatform
  | quotaBlocked
  | activeLimit (active limit : Int)
  | cooldown (wait : Int)
  | minted (token : String)
  | started
  | sourceUnavailable
  | notFound
  | expired
  | chatRateLimited
  | globalRateLimited
  deriving Repr, DecidableEq

/-- `_consume_chat_rate_slot` from `callbacks.py` (lines 118–126).  Python
truthiness: `not chat_id` is true for `None` and for `0`; `last` is falsy
when the stored timestamp is `0.0`. -/
def consumeChatRateSlot (cfg : BotConfig) (chatId : Option Int) (now : Int)
    (st : BotState) : Bool × BotState :=
  let cooldown := cfg.callbackChatCooldownSeconds
  let truthyChat : Bool := match chatId with
    | none => false
    | some cid => cid ≠ 0
  if truthyChat = false ∨ cooldown ≤ 0 then (true, st)
  else
    match chatId with
    | none => (true, st)
    | some cid =>
      let last := (alGet st.chatLastCallbackTs cid).getD 0
      if last ≠ 0 ∧ now - last < cooldown then (false, st)
      else (true, { st with chatLastCallbackTs := alSet st.chatLastCallbackTs cid now })

/-- `_consume_global_rate_slot` from `callbacks.py` (lines 129–140): evict
events older than the window from the front of the deque, deny once `limit`
events remain inside the window, otherwise record the call. -/
def consumeGlobalRateSlot (cfg : BotConfig) (now : Int) (st : BotState) :
    Bool × BotState :=
  let limit := cfg.callbackGlobalMaxCalls
  let window := cfg.callbackGlobalWindowSeconds
  if limit ≤ 0 ∨ window ≤ 0 then (true, st)
  else
    let events := st.globalCallbackEvents.dropWhile (fun e => now - e > window)
    if (events.length : Int) ≥ limit then
      (false, { st with globalCallbackEvents := events })
    else
      (true, { st with globalCallbackEvents := events ++ [now] })

/-- Admission prefix of `_process_download_flow` (`downloads.py` lines
133–237): access check, URL safety, platform detection, quota verdict,
per-actor active cap (one-to-one chats only), actor cooldown, then either
mint a pending token (group chats) or stamp `last_request_ts`, bump the
active counter and start the download. -/
def processDownloadFlow (cfg : BotConfig) (env : FlowEnv) (uid : Int)
    (isGroup : Bool) (now : Int) (token : String) (url : String)
    (chatId : Int) (messageId : Int) (st : BotState) :
    FlowOutcome × BotState :=
  if ¬env.userAllowed then (.deniedAccess, st)
  else if ¬env.urlSafe then (.blockedUrl, st)
  else match env.platform with
  | none => (.unsupportedPlatform, st)
  | some _ =>
    if env.quotaBlocked then (.quotaBlocked, st)
    else
      let maxPerUser := cfg.maxConcurrentPerUser
      let active := (alGet st.userActiveDownloads uid).getD 0
      if active ≥ maxPerUser ∧ ¬isGroup then (.activeLimit active maxPerUser, st)
      else
        let cooldown := max 0 cfg.userCooldownSeconds
        let lastTs := (alGet st.userLastRequestTs uid).getD 0
        if cooldown ≠ 0 ∧ lastTs ≠ 0 ∧ now - lastTs < cooldown then
          (.cooldown (max 1 (cooldown - (now - lastTs))), st)
        else if isGroup then
          (.minted token,
           { st with pendingDownloads :=
              mintToken token ⟨url, uid, now, chatId, messageId⟩ st.pendingDownloads })
        else
          (.started,
           { st with
              userLastRequestTs := alSet st.userLastRequestTs uid now,
              userActiveDownloads := alSet st.userActiveDownloads uid (active + 1) })

/-- Admission prefix of `handle_download_callback` (`callbacks.py` lines
147–273): pop the token, TTL check, access check, URL presence and safety,
quota verdict, chat and global callback rate limits, per-actor active cap,
actor cooldown, then stamp `last_request_ts`, bump the active counter and
start the download.  Both `time.time()` calls (lines 156 and 230) are
embedded as the single instant `now`. -/
def handleDownloadCallback (cfg : BotConfig) (env : FlowEnv) (uid : Int)
    (chatId : Option Int) (now : Int) (token : String) (st : BotState) :
    FlowOutcome × BotState :=
  match confirmStep token now st.pendingDownloads with
  | (.notFound, pd) => (.notFound, { st with pendingDownloads := pd })
  | (.expired, pd) => (.expired, { st with pendingDownloads := pd })
  | (.confirmed entry, pd) =>
    let st1 := { st with pendingDownloads := pd }
    if ¬env.userAllowed then (.deniedAccess, st1)
    else if entry.url = "" then (.sourceUnavailable, st1)
    else if ¬env.urlSafe then (.blockedUrl, st1)
    else if env.quotaBlocked then (.quotaBlocked, st1)
    else
      match consumeChatRateSlot cfg chatId now st1 with
      | (false, st2) => (.chatRateLimited, st2)
      | (true, st2) =>
        match consumeGlobalRateSlot cfg now st2 with
        | (false, st3) => (.globalRateLimited, st3)
        | (true, st3) =>
          let active := (alGet st3.userActiveDownloads uid).getD 0
          let maxPerUser := cfg.maxConcurrentPerUser
          if active ≥ maxPerUser then (.activeLimit active maxPerUser, st3)
          else
            let cooldown := max 0 cfg.userCooldownSeconds
            let lastTs := (alGet st3.userLastRequestTs uid).getD 0
            if cooldown ≠ 0 ∧ lastTs ≠ 0 ∧ now - lastTs < cooldown then
              (.cooldown (max 1 (cooldown - (now - lastTs))), st3)
            else
              (.started,
               { st3 with
                  userLastRequestTs := alSet st3.userLastRequestTs uid now,
                  userActiveDownloads := alSet st3.userActiveDownloads uid (active + 1) })

/-! ## Claim theorems: admission and pending tokens -/

/-- Concrete fixtures for the cooldown claim: cooldown 5 s, last accepted
request at t=10, attempt at t=12. -/
def c1Cfg : BotConfig := ⟨2, 5, 0, 0, 60⟩

def c1Env : FlowEnv := ⟨true, true, some "youtube", false⟩

def c1St : BotState := ⟨[(7, 10)], [], [], [], [("tok", ⟨"u", 9, 11, 1, 2⟩)]⟩

/-- Claim C1 (counterexample): the claim says an elapsed-cooldown shortfall
never causes a denial in a group context or at token confirmation; yet with
cooldown 5 s and only 2 s elapsed since the actor's last accepted request,
the group-context message flow and the token-confirmation flow both deny
with the cooldown outcome (wait 3 s). -/
theorem cooldown_denies_group_and_confirm_counterexample :
    (processDownloadFlow c1Cfg c1Env 7 true 12 "tok" "u" 1 2 c1St).1 =
      .cooldown 3 ∧
    (handleDownloadCallback c1Cfg c1Env 7 (some 1) 12 "tok" c1St).1 =
      .cooldown 3 := by
  constructor <;> rfl

/-- Claim C1 (amended): the actor cooldown is enforced in every context.
Whenever the earlier checks pass (access allowed, URL safe, platform
detected, quota not blocked, below the active cap, rate limits disabled for
the callback path) and the time since the actor's last accepted request is
positive but below the configured cooldown, both the group-context message
flow and the token-confirmation flow deny with the cooldown outcome. -/
theorem cooldown_enforced_all_contexts
    (cfg : BotConfig) (env : FlowEnv) (uid now : Int)
    (token url : String) (chatId messageId : Int)
    (st : BotState) (e : PendingEntry)
    (hallow : env.userAllowed = true) (hsafe : env.urlSafe = true)
    (hplat : env.platform.isSome) (hquota : env.quotaBlocked = false)
    (hactive : (alGet st.userActiveDownloads uid).getD 0 < cfg.maxConcurrentPerUser)
    (hcd : max 0 cfg.userCooldownSeconds ≠ 0)
    (hlast : (alGet st.userLastRequestTs uid).getD 0 ≠ 0)
    (hshort : now - (alGet st.userLastRequestTs uid).getD 0 <
      max 0 cfg.userCooldownSeconds)
    (htok : alGet st.pendingDownloads token = some e)
    (hfresh : ¬ now - e.ts > PENDING_TOKEN_TTL)
    (hurl : e.url ≠ "")
    (hchatcd : cfg.callbackChatCooldownSeconds ≤ 0)
    (hglobal : cfg.callbackGlobalMaxCalls ≤ 0) :
    (processDownloadFlow cfg env uid true now token url chatId messageId st).1 =
      .cooldown (max 1 (max 0 cfg.userCooldownSeconds -
        (now - (alGet st.userLastRequestTs uid).getD 0))) ∧
    (handleDownloadCallback cfg env uid (some chatId) now token st).1 =
      .cooldown (max 1 (max 0 cfg.userCooldownSeconds -
        (now - (alGet st.userLastRequestTs uid).getD 0))) := by
  obtain ⟨p, hp⟩ := Option.isSome_iff_exists.mp hplat
  have hnot : ¬ ((alGet st.userActiveDownloads uid).getD 0 ≥
      cfg.maxConcurrentPerUser ∧ ¬ (true : Bool)) := by
    simp
  constructor
  · simp only [processDownloadFlow, hallow, hsafe, hp, hquota]
    simp [hcd, hlast, hshort, not_lt.mpr (le_of_lt hactive)]
  · have hstep : confirmStep token now st.pendingDownloads =
        (.confirmed e, alPop st.pendingDownloads token) := by
      simp [confirmStep, htok, hfresh]
    simp only [handleDownloadCallback, hstep, hallow, hsafe, hquota]
    simp only [consumeChatRateSlot, consumeGlobalRateSlot]
    simp [hurl, hchatcd, hglobal, hcd, hlast, hshort, not_le.mpr hactive]

/-- Claim C1 (witness): the amended theorem applied at the concrete
fixtures. -/
theorem cooldown_enforced_all_contexts_witness :
    (processDownloadFlow c1Cfg c1Env 7 true 12 "tok" "u" 1 2 c1St).1 =
      .cooldown (max 1 (max 0 c1Cfg.userCooldownSeconds -
        (12 - (alGet c1St.userLastRequestTs 7).getD 0))) ∧
    (handleDownloadCallback c1Cfg c1Env 7 (some 1) 12 "tok" c1St).1 =
      .cooldown (max 1 (max 0 c1Cfg.userCooldownSeconds -
        (12 - (alGet c1St.userLastRequestTs 7).getD 0))) :=
  cooldown_enforced_all_contexts c1Cfg c1Env 7 12 "tok" "u" 1 2 c1St
    ⟨"u", 9, 11, 1, 2⟩ (by decide) (by decide) (by decide) (by decide)
    (by decide) (by decide) (by decide) (by decide) (by decide) (by decide)
    (by decide) (by decide) (by decide)

/-- Claim C2 (confirmed): token confirmation is single-shot.  Once a confirm
has yielded the stored payload, the token is gone from the pending map, and
after any interleaving of other operations (mints of other tokens, other
confirms, sweeper purges, administrative drops and flushes) a second confirm
of the same token yields the not-found outcome. -/
theorem confirm_single_shot
    (t : String) (now now' : Int) (s s₁ : PendingStore) (e : PendingEntry)
    (ops : List PendingOp)
    (hconf : confirmStep t now s = (.confirmed e, s₁))
    (hops : ∀ op ∈ ops, ¬ op.mints t) :
    (confirmStep t now' (applyPendingOps ops s₁)).1 = .notFound := by
  have habs : alGet s₁ t = none := by
    cases hget : alGet s t with
    | none =>
      rw [confirmStep_absent hget] at hconf
      simp at hconf
    | some e' =>
      have hpop := @confirmStep_pops t now s e' hget
      rw [hconf] at hpop
      exact hpop
  rw [confirmStep_absent (applyPendingOps_preserves_absent ops t s₁ hops habs)]

/-- Claim C2 (witness): a concrete token is confirmed once, a fresh token is
minted and a sweep runs in between, and the second confirm is not-found. -/
theorem confirm_single_shot_witness :
    (confirmStep "t" 20 (applyPendingOps
      [.mint "u" ⟨"x", 1, 15, 0, 0⟩, .purge 1000, .drop "u"] [])).1 =
      .notFound :=
  confirm_single_shot "t" 10 20 [("t", ⟨"u1", 7, 5, 1, 2⟩)] []
    ⟨"u1", 7, 5, 1, 2⟩ [.mint "u" ⟨"x", 1, 15, 0, 0⟩, .purge 1000, .drop "u"]
    (by decide) (by decide)

/-- Claim C3 (confirmed): the pending-token TTL is checked at confirm time.
A confirm of a token whose age exceeds `PENDING_TOKEN_TTL` yields the
expired outcome and never reaches the started state, independently of any
sweeper run. -/
theorem confirm_checks_ttl
    (cfg : BotConfig) (env : FlowEnv) (uid : Int) (chatId : Option Int)
    (now : Int) (token : String) (st : BotState) (e : PendingEntry)
    (htok : alGet st.pendingDownloads token = some e)
    (hold : now - e.ts > PENDING_TOKEN_TTL) :
    (handleDownloadCallback cfg env uid chatId now token st).1 = .expired ∧
    (handleDownloadCallback cfg env uid chatId now token st).1 ≠ .started := by
  have hstep : confirmStep token now st.pendingDownloads =
      (.expired, alPop st.pendingDownloads token) := by
    simp [confirmStep, htok, hold]
  constructor
  · simp [handleDownloadCallback, hstep]
  · simp [handleDownloadCallback, hstep]

/-- Claim C3 (witness): a token aged 689 s (> 600 s TTL) is expired at
confirm time. -/
theorem confirm_checks_ttl_witness :
    (handleDownloadCallback c1Cfg c1Env 7 (some 1) 700 "tok2"
      ⟨[], [], [], [], [("tok2", ⟨"u", 9, 11, 1, 2⟩)]⟩).1 = .expired ∧
    (handleDownloadCallback c1Cfg c1Env 7 (some 1) 700 "tok2"
      ⟨[], [], [], [], [("tok2", ⟨"u", 9, 11, 1, 2⟩)]⟩).1 ≠ .started :=
  confirm_checks_ttl c1Cfg c1Env 7 (some 1) 700 "tok2"
    ⟨[], [], [], [], [("tok2", ⟨"u", 9, 11, 1, 2⟩)]⟩ ⟨"u", 9, 11, 1, 2⟩
    (by decide) (by decide)

/-- Claim C10 (confirmed): a confirm of an existing token consumes it even
when the outcome is a TTL denial — the pop happens before the TTL check —
so the expired denial removes the token and any later confirm of the same
token yields not-found rather than expired. -/
theorem expired_confirm_consumes_token
    (t : String) (now : Int) (s : PendingStore) (e : PendingEntry)
    (htok : alGet s t = some e) (hold : now - e.ts > PENDING_TOKEN_TTL) :
    (confirmStep t now s).1 = .expired ∧
    alGet (confirmStep t now s).2 t = none ∧
    ∀ now', (confirmStep t now' (confirmStep t now s).2).1 = .notFound := by
  have hstep : confirmStep t now s = (.expired, alPop s t) := by
    simp [confirmStep, htok, hold]
  refine ⟨by rw [hstep], ?_, ?_⟩
  · rw [hstep]
    exact alGet_alPop_self s t
  · intro now'
    rw [hstep]
    exact congrArg Prod.fst (confirmStep_absent (alGet_alPop_self s t))

/-- Claim C10 (witness): confirming an expired token at t=700 consumes it;
a confirm at t=701 is not-found. -/
theorem expired_confirm_consumes_token_witness :
    (confirmStep "t3" 700 [("t3", ⟨"u", 9, 11, 1, 2⟩)]).1 = .expired ∧
    alGet (confirmStep "t3" 700 [("t3", ⟨"u", 9, 11, 1, 2⟩)]).2 "t3" = none ∧
    ∀ now', (confirmStep "t3" now'
      (confirmStep "t3" 700 [("t3", ⟨"u", 9, 11, 1, 2⟩)]).2).1 = .notFound :=
  expired_confirm_consumes_token "t3" 700 [("t3", ⟨"u", 9, 11, 1, 2⟩)]
    ⟨"u", 9, 11, 1, 2⟩ (by decide) (by decide)

/-! ## Actor counters (`user_active_downloads`)

The four kinds of mutation of `state.user_active_downloads` in the program:
the admission increment, the `finally`-block release, the sweeper reset
(`_purge_stuck_actives` / `_purge_stale_last_requests` in
`bot_app/maintenance.py`), and the administrative cancel
(`cancel_user_downloads` in `bot_app/admin_runtime.py`). -/

/-- Admission increment (downloads.py lines 234–235, callbacks.py lines
270–271): stamp `last_request_ts` and bump the active counter. -/
def startActor (uid now : Int) (st : BotState) : BotState :=
  { st with
     userLastRequestTs := alSet st.userLastRequestTs uid now,
     userActiveDownloads := alSet st.userActiveDownloads uid
       ((alGet st.userActiveDownloads uid).getD 0 + 1) }

/-- Release in the `finally` blocks (downloads.py lines 401–402,
callbacks.py lines 445–446):
`state.user_active_downloads[uid] = max(0, ...get(uid, 0) - 1)`. -/
def releaseActor (uid : Int) (st : BotState) : BotState :=
  { st with
     userActiveDownloads := alSet st.userActiveDownloads uid
       (max 0 ((alGet st.userActiveDownloads uid).getD 0 - 1)) }

/-- `_purge_stuck_actives` from `bot_app/maintenance.py`: drop idle zero
counters past `last_ttl`, reset positive counters stuck past
`stuck_timeout`. -/
def purgeStuckActives (now stuckTimeout lastTtl : Int)
    (active lastTs : List (Int × Int)) : List (Int × Int) :=
  active.filterMap (fun kv =>
    let last := (alGet lastTs kv.1).getD 0
    if kv.2 ≤ 0 ∧ now - last > lastTtl then none
    else if kv.2 > 0 ∧ now - last > stuckTimeout then some (kv.1, 0)
    else some kv)

/-- `_purge_stale_last_requests` from `bot_app/maintenance.py`. -/
def purgeStaleLastRequests (now lastTtl : Int)
    (active lastTs : List (Int × Int)) : List (Int × Int) :=
  lastTs.filter (fun kv =>
    ¬ (now - kv.2 > lastTtl ∧ (alGet active kv.1).getD 0 ≤ 0))

/-- One sweeper iteration over the actor maps, in `_cleanup_loop` order:
stuck-actives purge, then stale-last-request purge (which reads the already
purged active map). -/
def sweepActors (now stuckTimeout lastTtl : Int) (st : BotState) : BotState :=
  let active' := purgeStuckActives now stuckTimeout lastTtl
    st.userActiveDownloads st.userLastRequestTs
  let last' := purgeStaleLastRequests now lastTtl active' st.userLastRequestTs
  { st with userActiveDownloads := active', userLastRequestTs := last' }

/-- `cancel_user_downloads` from `bot_app/admin_runtime.py`: if the actor
has a counter, force it to zero and drop the last-request stamp. -/
def cancelUserDownloads (uid : Int) (st : BotState) : BotState :=
  match alGet st.userActiveDownloads uid with
  | none => st
  | some _ =>
    { st with
       userActiveDownloads := alSet st.userActiveDownloads uid 0,
       userLastRequestTs := alPop st.userLastRequestTs uid }

/-- The operations that ever mutate the per-actor counters. -/
inductive ActorOp where
  | start (uid now : Int)
  | release (uid : Int)
  | sweep (now stuckTimeout lastTtl : Int)
  | cancel (uid : Int)
  deriving Repr, DecidableEq

def ActorOp.apply (op : ActorOp) (st : BotState) : BotState :=
  match op with
  | .start uid now => startActor uid now st
  | .release uid => releaseActor uid st
  | .sweep now stuckTimeout lastTtl => sweepActors now stuckTimeout lastTtl st
  | .cancel uid => cancelUserDownloads uid st

def applyActorOps (ops : List ActorOp) (st : BotState) : BotState :=
  ops.foldl (fun s op => op.apply s) st

/-- Process start: all shared maps empty. -/
def initialBotState : BotState := ⟨[], [], [], [], []⟩

/-- Every stored active counter is nonnegative. -/
def activeNonneg (st : BotState) : Prop :=
  ∀ kv ∈ st.userActiveDownloads, 0 ≤ kv.2

theorem alGet_getD_nonneg {l : List (Int × Int)}
    (h : ∀ kv ∈ l, 0 ≤ kv.2) (uid : Int) : 0 ≤ (alGet l uid).getD 0 := by
  cases hget : alGet l uid with
  | none => simp
  | some v =>
    simp only [alGet, Option.map_eq_some'] at hget
    obtain ⟨kv, hfind, hv⟩ := hget
    have := h kv (List.mem_of_find?_eq_some hfind)
    simpa [hv] using this

theorem activeNonneg_alSet {st : BotState} (h : activeNonneg st)
    (uid v : Int) (hv : 0 ≤ v) :
    ∀ kv ∈ alSet st.userActiveDownloads uid v, 0 ≤ kv.2 := by
  intro kv hkv
  simp only [alSet, List.mem_cons] at hkv
  cases hkv with
  | inl heq => rw [heq]; exact hv
  | inr hmem => exact h kv (List.mem_of_mem_filter hmem)

theorem ActorOp.apply_preserves_nonneg (op : ActorOp) (st : BotState)
    (h : activeNonneg st) : activeNonneg (op.apply st) := by
  cases op with
  | start uid now =>
    intro kv hkv
    exact activeNonneg_alSet h uid _
      (by linarith [alGet_getD_nonneg h uid]) kv hkv
  | release uid =>
    intro kv hkv
    exact activeNonneg_alSet h uid _ (le_max_left 0 _) kv hkv
  | sweep now stuckTimeout lastTtl =>
    intro kv hkv
    simp only [apply, sweepActors, purgeStuckActives, List.mem_filterMap] at hkv
    obtain ⟨kv₀, hmem, hf⟩ := hkv
    by_cases h1 : kv₀.2 ≤ 0 ∧ now - (alGet st.userLastRequestTs kv₀.1).getD 0 > lastTtl
    · simp [h1] at hf
    · by_cases h2 : kv₀.2 > 0 ∧ now - (alGet st.userLastRequestTs kv₀.1).getD 0 > stuckTimeout
      · simp only [h1, if_false, h2, if_true] at hf
        rw [← Option.some.inj hf]
      · simp only [h1, if_false, h2, if_false] at hf
        rw [← Option.some.inj hf]
        exact h kv₀ hmem
  | cancel uid =>
    intro kv hkv
    simp only [apply, cancelUserDownloads] at hkv
    cases hget : alGet st.userActiveDownloads uid with
    | none =>
      rw [hget] at hkv
      exact h kv hkv
    | some v =>
      rw [hget] at hkv
      exact activeNonneg_alSet h uid 0 le_rfl kv hkv

theorem applyActorOps_preserves_nonneg (ops : List ActorOp) (st : BotState)
    (h : activeNonneg st) : activeNonneg (applyActorOps ops st) := by
  induction ops generalizing st with
  | nil => simpa [applyActorOps] using h
  | cons op rest ih =>
    simp only [applyActorOps, List.foldl_cons]
    exact ih (op.apply st) (op.apply_preserves_nonneg st h)

/-- Claim C4 (confirmed): starting from process start, for every actor and
every sequence of admission increments, releases (including double
releases), sweeper resets and administrative cancels, the actor's active
counter never becomes negative — the release floors the counter at zero. -/
theorem active_count_never_negative (ops : List ActorOp) (uid : Int) :
    0 ≤ (alGet (applyActorOps ops initialBotState).userActiveDownloads
      uid).getD 0 := by
  have h0 : activeNonneg initialBotState := by
    intro kv hkv
    simp [initialBotState] at hkv
  exact alGet_getD_nonneg
    (applyActorOps_preserves_nonneg ops initialBotState h0) uid

/-! ## Global download slot pool (`bot_app/runtime.py` line 31)

`global_download_semaphore = asyncio.Semaphore(MAX_CONCURRENT)`.  The only
field an `asyncio.Semaphore` carries is its current `_value` (the available
slots); `admin_runtime.get_runtime_snapshot` derives
`in_use = max(0, max_slots - available)`.  The downloads run inside
`async with global_download_semaphore:` (downloads.py line 262,
callbacks.py line 308), whose exit handler releases the slot on both the
normal path and the exception path. -/

structure Semaphore where
  maxSlots : Int
  value : Int
  deriving Repr, DecidableEq

/-- `in_use` as computed in `admin_runtime.get_runtime_snapshot`
(line 62): `max(0, max_slots - available)`. -/
def Semaphore.inUse (s : Semaphore) : Int := max 0 (s.maxSlots - s.value)

/-- Invariant of the slot pool: `in_use + available == max_slots`. -/
def Semaphore.invariant (s : Semaphore) : Prop :=
  s.inUse + s.value = s.maxSlots

/-- `asyncio.Semaphore.acquire`: proceeds only when a slot is available and
decrements the value. -/
def semAcquire (s : Semaphore) : Semaphore :=
  { s with value := s.value - 1 }

/-- `asyncio.Semaphore.release`: increments the value. -/
def semRelease (s : Semaphore) : Semaphore :=
  { s with value := s.value + 1 }

/-- Outcome of the pipeline work guarded by the semaphore: the
`download_video` call either returns or raises. -/
inductive GuardedOutcome where
  | ok
  | raised
  deriving Repr, DecidableEq

/-- One `async with global_download_semaphore:` cycle: acquire, run the
guarded body, release on exit — the release happens for the normal exit and
for the exception exit alike. -/
def guardedSlotCycle (s : Semaphore) (body : GuardedOutcome) :
    Semaphore × GuardedOutcome :=
  let s1 := semAcquire s
  let s2 := semRelease s1
  (s2, body)

/-- A sequence of guarded cycles (successive downloads, each succeeding or
raising). -/
def applySlotCycles (bodies : List GuardedOutcome) (s : Semaphore) :
    Semaphore :=
  bodies.foldl (fun st b => (guardedSlotCycle st b).1) s

/-- Claim C5 (confirmed): the slot pool preserves
`in_use + available == max_slots` across every acquire/release cycle,
including cycles whose guarded body raises: the invariant holds while the
slot is held, the cycle restores the pool state exactly, and after any
sequence of cycles the invariant still holds. -/
theorem slot_pool_invariant (s : Semaphore) (body : GuardedOutcome)
    (bodies : List GuardedOutcome)
    (hinv : s.invariant) (havail : 0 < s.value) :
    (semAcquire s).invariant ∧
    (guardedSlotCycle s body).1 = s ∧
    (guardedSlotCycle s body).1.invariant ∧
    applySlotCycles bodies s = s := by
  have hle : s.value ≤ s.maxSlots := by
    simp only [Semaphore.invariant, Semaphore.inUse] at hinv
    rcases le_total (s.maxSlots - s.value) 0 with h | h
    · omega
    · rw [max_eq_right h] at hinv
      omega
  refine ⟨?_, ?_, ?_, ?_⟩
  · simp only [Semaphore.invariant, Semaphore.inUse, semAcquire]
    omega
  · simp [guardedSlotCycle, semAcquire, semRelease]
  · have hcycle : (guardedSlotCycle s body).1 = s := by
      simp [guardedSlotCycle, semAcquire, semRelease]
    rw [hcycle]
    exact hinv
  · induction bodies with
    | nil => rfl
    | cons b rest ih =>
      simp only [applySlotCycles, List.foldl_cons] at ih ⊢
      have hcycle : (guardedSlotCycle s b).1 = s := by
        simp [guardedSlotCycle, semAcquire, semRelease]
      rw [hcycle]
      exact ih

/-- Claim C5 (witness): a pool of 4 slots with 4 available, one successful
cycle, one raising cycle. -/
theorem slot_pool_invariant_witness :
    (semAcquire ⟨4, 4⟩).invariant ∧
    (guardedSlotCycle ⟨4, 4⟩ .raised).1 = ⟨4, 4⟩ ∧
    (guardedSlotCycle ⟨4, 4⟩ .raised).1.invariant ∧
    applySlotCycles [.ok, .raised] ⟨4, 4⟩ = ⟨4, 4⟩ :=
  slot_pool_invariant ⟨4, 4⟩ .raised [.ok, .raised]
    (by unfold Semaphore.invariant Semaphore.inUse; decide) (by decide)

/-! ## Media acquisition pipeline (`utils/downloader.py`)

String helpers mirroring Python `in` on lowercased text (ASCII inputs). -/

/-- Python `s.startswith(pat)` on character lists. -/
def charsStartWith : List Char → List Char → Bool
  | [], _ => true
  | _ :: _, [] => false
  | p :: ps, c :: cs => p == c && charsStartWith ps cs

/-- Python `pat in s` on character lists. -/
def charsContain (pat : List Char) : List Char → Bool
  | [] => charsStartWith pat []
  | c :: cs => charsStartWith pat (c :: cs) || charsContain pat cs

/-- Python `pat in s`. -/
def containsSubstr (s pat : String) : Bool := charsContain pat.data s.data

/-- Python `str.lower()` restricted to ASCII. -/
def charToLower (c : Char) : Char :=
  if 'A' ≤ c ∧ c ≤ 'Z' then Char.ofNat (c.toNat + 32) else c

def strToLower (s : String) : String := String.mk (s.data.map charToLower)

/-- `REFRESH_ERROR_MARKERS` from `services/instagram_cookies.py`. -/
def REFRESH_ERROR_MARKERS : List String :=
  ["Requested content is not available", "login required", "rate-limit"]

/-- `InstagramCookieRefresher.should_retry_for_error`: credentials present,
non-empty error text, and some marker occurs in the lowercased text. -/
def shouldRetryForError (hasCredentials : Bool) (errorText : String) : Bool :=
  hasCredentials && errorText ≠ "" &&
    REFRESH_ERROR_MARKERS.any
      (fun m => containsSubstr (strToLower errorText) (strToLower m))

/-- Environment of `_try_refresh_instagram`: availability of the
`services.instagram_cookies` module, configured credentials, and whether the
forced refresh reports `refreshed = True`. -/
structure RefreshEnv where
  moduleAvailable : Bool
  hasCredentials : Bool
  refreshSucceeds : Bool
  deriving Repr, DecidableEq

/-- `_try_refresh_instagram(url, error_text, attempt)` from
`utils/downloader.py` (lines 498–521): refresh only for Instagram URLs, only
on the first attempt, only when the refresher module imports, only when the
error matches the refresh markers, and report success only when the refresh
actually refreshed the cookies. -/
def tryRefreshInstagram (env : RefreshEnv) (url : String)
    (errorText : String) (attempt : Nat) : Bool :=
  if ¬ containsSubstr (strToLower url) "instagram.com" then false
  else if attempt > 0 then false
  else if ¬ env.moduleAvailable then false
  else if ¬ shouldRetryForError env.hasCredentials errorText then false
  else env.refreshSucceeds

/-- Retry loop of `download_video` (`utils/downloader.py` lines 266–289):
`attempts = 2`; each attempt runs `_download_once`; on a `DownloadError`
the loop continues only when `_try_refresh_instagram` succeeds, otherwise
the error is re-raised.  The result is paired with the number of
`_download_once` invocations made. -/
def downloadVideoGo (env : RefreshEnv) (url : String)
    (outcome : Nat → Except String String) :
    Nat → Nat → Nat → Option String → Except String String × Nat
  | 0, _, made, lastError =>
    (match lastError with
     | some e => .error e
     | none => .error "download failed for unknown reason", made)
  | fuel + 1, attemptIdx, made, _ =>
    match outcome attemptIdx with
    | .ok p => (.ok p, made + 1)
    | .error e =>
      if tryRefreshInstagram env url e attemptIdx then
        downloadVideoGo env url outcome fuel (attemptIdx + 1) (made + 1) (some e)
      else (.error e, made + 1)

/-- `download_video` (`utils/downloader.py` lines 251–289): cache fast path,
then at most two acquisition attempts. -/
def download_video (cacheHit : Option String) (env : RefreshEnv)
    (url : String) (outcome : Nat → Except String String) :
    Except String String × Nat :=
  match cacheHit with
  | some p => (.ok p, 0)
  | none => downloadVideoGo env url outcome 2 0 0 none

/-- Claim C6 (confirmed): when the first attempt fails with an error that
triggers the Instagram cookie refresh and the refresh succeeds, the whole
acquisition is retried exactly once — the final result is exactly the
second attempt's outcome after two invocations, so a second failure
propagates unconditionally — and no execution of `download_video` ever
invokes `_download_once` more than twice. -/
theorem refresh_retries_exactly_once (env : RefreshEnv) (url e1 : String)
    (outcome : Nat → Except String String)
    (h1 : outcome 0 = .error e1)
    (hretry : tryRefreshInstagram env url e1 0 = true) :
    download_video none env url outcome = (outcome 1, 2) ∧
    (∀ (cacheHit : Option String) (o : Nat → Except String String),
      (download_video cacheHit env url o).2 ≤ 2) := by
  constructor
  · simp only [download_video, downloadVideoGo, h1, hretry, if_true]
    cases h2 : outcome 1 with
    | ok p => rfl
    | error e2 =>
      have : tryRefreshInstagram env url e2 1 = false := by
        simp [tryRefreshInstagram]
      simp [this]
  · intro cacheHit o
    cases cacheHit with
    | some p => simp [download_video]
    | none =>
      simp only [download_video]
      cases h0 : o 0 with
      | ok p => simp [downloadVideoGo, h0]
      | error e =>
        simp only [downloadVideoGo, h0]
        by_cases hr : tryRefreshInstagram env url e 0 = true
        · simp only [hr, if_true]
          cases h1' : o 1 with
          | ok p => simp [downloadVideoGo]
          | error e' =>
            have : tryRefreshInstagram env url e' 1 = false := by
              simp [tryRefreshInstagram]
            simp [downloadVideoGo, this]
        · simp [hr]

/-- Claim C6 (witness): a concrete Instagram URL whose first attempt fails
with a refresh-marker error and whose second attempt also fails. -/
theorem refresh_retries_exactly_once_witness :
    download_video none ⟨true, true, true⟩ "https://www.instagram.com/p/x"
      (fun n => if n = 0 then .error "ERROR: login required to view"
                else .error "ERROR: second failure") =
      ((fun n : Nat => if n = 0 then
          (Except.error "ERROR: login required to view" : Except String String)
        else .error "ERROR: second failure") 1, 2) ∧
    (∀ (cacheHit : Option String) (o : Nat → Except String String),
      (download_video cacheHit ⟨true, true, true⟩
        "https://www.instagram.com/p/x" o).2 ≤ 2) :=
  refresh_retries_exactly_once ⟨true, true, true⟩
    "https://www.instagram.com/p/x" "ERROR: login required to view"
    (fun n => if n = 0 then .error "ERROR: login required to view"
              else .error "ERROR: second failure")
    rfl (by decide)

/-! ### Post-download stream completion (`_download_once`, lines 374–495) -/

/-- Failure reasons of the post-download phase of `_download_once`. -/
inductive OnceFail where
  | audioFetchFailed
  | audioFileMissing
  | videoFetchFailed
  | videoFileMissing
  | mergeFailed
  | unrecognizedOutput
  deriving Repr, DecidableEq

/-- Result of the post-download phase: the original file, a merged file
(with the track content produced by `ffmpeg -map 0:v:0 -map 1:a:0` and the
two temporaries unlinked), or a `DownloadError`. -/
inductive OncePost where
  | originalFile
  | merged (hasVideoTrack hasAudioTrack tempsDeleted : Bool)
  | failure (reason : OnceFail)
  deriving Repr, DecidableEq

/-- Environment of the post-download phase: the `ffprobe` stream probe of
the primary file, the profile expectations, and the outcomes of the
secondary audio-only / video-only fetches and of the `ffmpeg` merges. -/
structure MergeEnv where
  hasAudio : Bool
  hasVideo : Bool
  expectAudio : Bool
  expectVideo : Bool
  audioFetchOk : Bool
  audioFetchErrLine : String
  audioFileFound : Bool
  audioMergeOk : Bool
  videoFetchOk : Bool
  videoFetchErrLine : String
  videoFileFound : Bool
  videoMergeOk : Bool
  deriving Repr, DecidableEq

/-- The post-download phase of `_download_once` (`utils/downloader.py`
lines 381–495), paired with the number of audio-only and video-only
re-fetches performed.  A secondary fetch failing with a
"requested format is not available" diagnostic degrades to the original
file; any other secondary-fetch failure, a missing secondary file, or a
failed merge raises. -/
def downloadOncePost (env : MergeEnv) : OncePost × Nat × Nat :=
  let needsAudio := env.expectAudio && !env.hasAudio
  let needsVideo := env.expectVideo && !env.hasVideo
  if !needsAudio && !needsVideo then (.originalFile, 0, 0)
  else if needsAudio && !needsVideo && env.hasVideo then
    if env.audioFetchOk = false then
      if containsSubstr (strToLower env.audioFetchErrLine)
          "requested format is not available" then (.originalFile, 1, 0)
      else (.failure .audioFetchFailed, 1, 0)
    else if env.audioFileFound = false then (.failure .audioFileMissing, 1, 0)
    else if env.audioMergeOk = false then (.failure .mergeFailed, 1, 0)
    else (.merged true true true, 1, 0)
  else if needsVideo && !needsAudio && env.hasAudio then
    if env.videoFetchOk = false then
      if containsSubstr (strToLower env.videoFetchErrLine)
          "requested format is not available" then (.originalFile, 0, 1)
      else (.failure .videoFetchFailed, 0, 1)
    else if env.videoFileFound = false then (.failure .videoFileMissing, 0, 1)
    else if env.videoMergeOk = false then (.failure .mergeFailed, 0, 1)
    else (.merged true true true, 0, 1)
  else (.failure .unrecognizedOutput, 0, 0)

/-- Claim C7 (confirmed): a video-only primary file under a profile
expecting audio triggers exactly one audio-only re-fetch; when the fetch
and merge succeed the result is a single merged artifact with both tracks
and the two temporaries deleted, and when the re-fetch fails with a
"requested format is not available" diagnostic the original video-only file
is returned unchanged instead of failing the job. -/
theorem audio_refetch_merge_or_degrade (env : MergeEnv)
    (hv : env.hasVideo = true) (ha : env.hasAudio = false)
    (hea : env.expectAudio = true) :
    (downloadOncePost env).2.1 = 1 ∧
    (env.audioFetchOk = true → env.audioFileFound = true →
      env.audioMergeOk = true →
      downloadOncePost env = (.merged true true true, 1, 0)) ∧
    (env.audioFetchOk = false →
      containsSubstr (strToLower env.audioFetchErrLine)
        "requested format is not available" = true →
      downloadOncePost env = (.originalFile, 1, 0)) := by
  have hn : (env.expectVideo && !env.hasVideo) = false := by
    rw [hv]; simp
  refine ⟨?_, ?_, ?_⟩
  · simp only [downloadOncePost, hv, ha, hea, hn]
    by_cases hf : env.audioFetchOk = false
    · by_cases hl : containsSubstr (strToLower env.audioFetchErrLine)
        "requested format is not available" = true
      · simp [hf, hl]
      · simp [hf, hl]
    · by_cases hff : env.audioFileFound = false
      · simp [hf, hff]
      · by_cases hm : env.audioMergeOk = false
        · simp [hf, hff, hm]
        · simp [hf, hff, hm]
  · intro h1 h2 h3
    simp [downloadOncePost, hv, ha, hea, hn, h1, h2, h3]
  · intro h1 h2
    simp [downloadOncePost, hv, ha, hea, hn, h1, h2]

/-- Claim C7 (witness): the theorem applied to a successful merge
environment and to a format-unavailable environment. -/
theorem audio_refetch_merge_or_degrade_witness :
    downloadOncePost
      ⟨false, true, true, true, true, "", true, true, true, "", true, true⟩ =
      (.merged true true true, 1, 0) ∧
    downloadOncePost
      ⟨false, true, true, true, false,
       "ERROR: Requested format is not available", true, true,
       true, "", true, true⟩ = (.originalFile, 1, 0) :=
  ⟨(audio_refetch_merge_or_degrade
      ⟨false, true, true, true, true, "", true, true, true, "", true, true⟩
      (by decide) (by decide) (by decide)).2.1 (by decide) (by decide)
      (by decide),
   (audio_refetch_merge_or_degrade
      ⟨false, true, true, true, false,
       "ERROR: Requested format is not available", true, true,
       true, "", true, true⟩
      (by decide) (by decide) (by decide)).2.2 (by decide) (by decide)⟩

/-! ## Video cache pruning (`services/video_cache.py`)

The cache directory holds one sub-directory per URL digest; each parses to
a `stored_at` timestamp via its `meta.json`, or fails to parse (corrupt).
`store` replaces the key's directory wholesale, writes fresh metadata and
calls `_prune_if_needed`, which deletes corrupt entries and every entry
beyond the `max_items` most recently stored. -/

/-- One entry directory on disk: its key (URL digest) and its parsed
`stored_at`, or `none` when `meta.json` fails to parse. -/
structure CacheEntryDir where
  key : String
  meta : Option Int
  deriving Repr, DecidableEq

/-- Timestamp used by the pruning sort (`float(meta.get("stored_at", 0))`,
only ever applied to parsed entries). -/
def tsOf (e : CacheEntryDir) : Int := e.meta.getD 0

/-- Sort relation of `_prune_if_needed`: `sort(key=stored_at, reverse=True)`
— newest first. -/
def cacheGE (a b : CacheEntryDir) : Prop := tsOf b ≤ tsOf a

instance : DecidableRel cacheGE :=
  fun a b => inferInstanceAs (Decidable (tsOf b ≤ tsOf a))

instance : IsTotal CacheEntryDir cacheGE :=
  ⟨fun a b => le_total (tsOf b) (tsOf a)⟩

instance : IsTrans CacheEntryDir cacheGE :=
  ⟨fun _ _ _ h1 h2 => le_trans h2 h1⟩

/-- `VideoCache._prune_if_needed` (lines 134–144): entries whose metadata
fails to parse are deleted as corrupt; the parsed entries are sorted by
`stored_at` descending and every entry beyond the first `max_items` is
deleted.  The value is the set of entries left on disk. -/
def pruneIfNeeded (maxItems : Nat) (dir : List CacheEntryDir) :
    List CacheEntryDir :=
  (List.insertionSort cacheGE (dir.filter (fun e => e.meta.isSome))).take
    maxItems

/-- `_prepare_entry_dir` plus the metadata write in `VideoCache.store`:
delete any existing directory for the key, recreate it and write fresh
metadata with `stored_at = now`. -/
def cacheReplaced (key : String) (now : Int) (dir : List CacheEntryDir) :
    List CacheEntryDir :=
  dir.filter (fun e => e.key ≠ key) ++ [CacheEntryDir.mk key (some now)]

/-- The entries of a directory whose metadata parses. -/
def cacheParsed (dir : List CacheEntryDir) : List CacheEntryDir :=
  dir.filter (fun e => e.meta.isSome)

/-- The entries `_prune_if_needed` deletes for exceeding `max_items`. -/
def cacheDroppedOld (maxItems : Nat) (dir : List CacheEntryDir) :
    List CacheEntryDir :=
  (List.insertionSort cacheGE (cacheParsed dir)).drop maxItems

/-- `VideoCache.store` (lines 77–94) as a disk transformation: replace the
key's directory wholesale, then run `_prune_if_needed`. -/
def cacheStore (maxItems : Nat) (key : String) (now : Int)
    (dir : List CacheEntryDir) : List CacheEntryDir :=
  pruneIfNeeded maxItems (cacheReplaced key now dir)

theorem pruneIfNeeded_eq (maxItems : Nat) (dir : List CacheEntryDir) :
    pruneIfNeeded maxItems dir =
      (List.insertionSort cacheGE (cacheParsed dir)).take maxItems := rfl

/-- Claim C8 (confirmed): after every store, the disk holds exactly the
`max_items` most recently stored parsed entries — the kept entries together
with the pruned ones are a permutation of the parsed entries, no corrupt
entry survives the pruning pass, exactly `min max_items (number of parsed
entries)` entries remain, and every pruned parsed entry's `stored_at` is
at most every kept entry's. -/
theorem cache_store_prunes_to_most_recent (maxItems : Nat) (key : String)
    (now : Int) (dir : List CacheEntryDir) :
    (cacheStore maxItems key now dir ++
        cacheDroppedOld maxItems (cacheReplaced key now dir)).Perm
      (cacheParsed (cacheReplaced key now dir)) ∧
    (∀ e ∈ cacheStore maxItems key now dir, e.meta.isSome) ∧
    (cacheStore maxItems key now dir).length =
      min maxItems (cacheParsed (cacheReplaced key now dir)).length ∧
    (∀ x ∈ cacheStore maxItems key now dir,
      ∀ y ∈ cacheDroppedOld maxItems (cacheReplaced key now dir),
        tsOf y ≤ tsOf x) := by
  have hstore : cacheStore maxItems key now dir =
      (List.insertionSort cacheGE (cacheParsed (cacheReplaced key now dir))).take
        maxItems := rfl
  refine ⟨?_, ?_, ?_, ?_⟩
  · rw [hstore, cacheDroppedOld, List.take_append_drop]
    exact List.perm_insertionSort cacheGE _
  · intro e he
    rw [hstore] at he
    have hmem := List.mem_of_mem_take he
    rw [List.mem_insertionSort] at hmem
    exact (List.mem_filter.mp hmem).2
  · rw [hstore, List.length_take, List.length_insertionSort]
  · intro x hx y hy
    rw [hstore] at hx
    rw [cacheDroppedOld] at hy
    exact (List.sorted_insertionSort cacheGE _).rel_of_mem_take_of_mem_drop
      hx hy

/-! ## Alert store (`services/alerts.py`)

The `health_alerts` table, embedded as a list of rows plus the next primary
key.  `record_alert` selects the newest open row for the normalized code
and updates it in place, or inserts a fresh open row; `resolve_alert`
selects the newest open row and stamps it resolved. -/

inductive AlertStatus where
  | opened
  | resolved
  deriving Repr, DecidableEq

structure AlertRow where
  id : Nat
  code : String
  message : String
  severity : String
  details : Option String
  status : AlertStatus
  createdAt : Int
  updatedAt : Int
  resolvedAt : Option Int
  deriving Repr, DecidableEq

structure AlertDb where
  rows : List AlertRow
  nextId : Nat
  deriving Repr, DecidableEq

/-- Python `.strip()` restricted to whitespace trimming on char lists. -/
def trimChars (cs : List Char) : List Char :=
  ((cs.dropWhile Char.isWhitespace).reverse.dropWhile Char.isWhitespace).reverse

/-- `code.strip().lower()` in `record_alert` / `resolve_alert`. -/
def normalizeCode (code : String) : String :=
  strToLower (String.mk (trimChars code.data))

/-- The `WHERE code = :code AND status = 'open'` filter. -/
def isOpenFor (c : String) (r : AlertRow) : Bool :=
  decide (r.code = c) && decide (r.status = AlertStatus.opened)

/-- `ORDER BY created_at DESC LIMIT 1` over a row list. -/
def maxByCreated : List AlertRow → Option AlertRow
  | [] => none
  | r :: rs =>
    match maxByCreated rs with
    | none => some r
    | some b => if b.createdAt > r.createdAt then some b else some r

/-- The open-row lookup shared by `record_alert` and `resolve_alert`. -/
def findLatestOpen (c : String) (rows : List AlertRow) : Option AlertRow :=
  maxByCreated (rows.filter (isOpenFor c))

/-- The `.values(...)` clause of the in-place update in `record_alert`. -/
def recordUpdatedRow (ex : AlertRow) (msg sev : String)
    (details : Option String) (now : Int) : AlertRow :=
  { ex with message := msg, severity := sev, details := details,
            updatedAt := now }

/-- The `.values(status='resolved', resolved_at=..., updated_at=...)` clause
of `resolve_alert`. -/
def resolveUpdatedRow (row : AlertRow) (now : Int) : AlertRow :=
  { row with status := AlertStatus.resolved, resolvedAt := some now,
             updatedAt := now }

/-- In-place row update used by both mutators: replace the row whose
primary key matches the target. -/
def updateRowIn (target updated r : AlertRow) : AlertRow :=
  if r.id = target.id then updated else r

/-- `record_alert` (`services/alerts.py` lines 43–96).  An empty code raises
`ValueError`, embedded as `none` with the table untouched.  An existing open
row for the normalized code is updated in place (message, severity, details,
`updated_at`); otherwise a fresh open row is inserted.  Returns the row and
the created flag. -/
def recordAlert (code msg sev : String) (details : Option String)
    (now : Int) (db : AlertDb) : Option (AlertRow × Bool) × AlertDb :=
  if code = "" then (none, db)
  else
    let ncode := normalizeCode code
    match findLatestOpen ncode db.rows with
    | some existing =>
      let updated := recordUpdatedRow existing msg sev details now
      (some (updated, false),
       { db with rows := db.rows.map (updateRowIn existing updated) })
    | none =>
      let row : AlertRow :=
        ⟨db.nextId, ncode, msg, sev, details, .opened, now, now, none⟩
      (some (row, true),
       { rows := db.rows ++ [row], nextId := db.nextId + 1 })

/-- `resolve_alert` (`services/alerts.py` lines 99–122): empty code or no
open row returns `None`; otherwise the newest open row is stamped
`resolved` with `resolved_at` set. -/
def resolveAlert (code : String) (now : Int) (db : AlertDb) :
    Option AlertRow × AlertDb :=
  if code = "" then (none, db)
  else
    let ncode := normalizeCode code
    match findLatestOpen ncode db.rows with
    | none => (none, db)
    | some row =>
      let updated := resolveUpdatedRow row now
      (some updated,
       { db with rows := db.rows.map (updateRowIn row updated) })

/-- The operations that ever mutate `health_alerts`. -/
inductive AlertOp where
  | record (code msg sev : String) (details : Option String) (now : Int)
  | resolve (code : String) (now : Int)
  deriving Repr, DecidableEq

def AlertOp.apply (op : AlertOp) (db : AlertDb) : AlertDb :=
  match op with
  | .record code msg sev details now => (recordAlert code msg sev details now db).2
  | .resolve code now => (resolveAlert code now db).2

def applyAlertOps (ops : List AlertOp) (db : AlertDb) : AlertDb :=
  ops.foldl (fun d op => op.apply d) db

/-- Well-formedness of the table: primary keys below the next key, distinct
primary keys, and no two open rows sharing a code. -/
def AlertDb.wf (db : AlertDb) : Prop :=
  (∀ r ∈ db.rows, r.id < db.nextId) ∧
  db.rows.Pairwise (fun a b => a.id ≠ b.id) ∧
  db.rows.Pairwise (fun a b =>
    ¬(a.status = AlertStatus.opened ∧ b.status = AlertStatus.opened ∧
      a.code = b.code))

theorem maxByCreated_eq_none {l : List AlertRow} :
    maxByCreated l = none ↔ l = [] := by
  cases l with
  | nil => simp [maxByCreated]
  | cons r rs =>
    simp only [maxByCreated]
    cases h : maxByCreated rs with
    | none => simp
    | some b => by_cases hc : b.createdAt > r.createdAt <;> simp [hc]

theorem maxByCreated_mem {l : List AlertRow} {r : AlertRow}
    (h : maxByCreated l = some r) : r ∈ l := by
  induction l with
  | nil => simp [maxByCreated] at h
  | cons a l ih =>
    cases hm : maxByCreated l with
    | none =>
      simp only [maxByCreated, hm, Option.some.injEq] at h
      exact h ▸ List.mem_cons_self a l
    | some b =>
      simp only [maxByCreated, hm] at h
      by_cases hc : b.createdAt > a.createdAt
      · rw [if_pos hc, Option.some.injEq] at h
        exact List.mem_cons_of_mem a (ih (h ▸ hm))
      · rw [if_neg hc, Option.some.injEq] at h
        exact h ▸ List.mem_cons_self a l

theorem findLatestOpen_mem {c : String} {rows : List AlertRow}
    {ex : AlertRow} (h : findLatestOpen c rows = some ex) :
    ex ∈ rows ∧ isOpenFor c ex = true := by
  have hm := maxByCreated_mem h
  exact ⟨List.mem_of_mem_filter hm, List.of_mem_filter hm⟩

theorem findLatestOpen_none {c : String} {rows : List AlertRow}
    (h : findLatestOpen c rows = none) :
    ∀ r ∈ rows, isOpenFor c r = false := by
  intro r hr
  have hnil : rows.filter (isOpenFor c) = [] := maxByCreated_eq_none.mp h
  by_contra hne
  have hmem : r ∈ rows.filter (isOpenFor c) :=
    List.mem_filter.mpr ⟨hr, by simpa using hne⟩
  rw [hnil] at hmem
  cases hmem

theorem mem_id_unique {rows : List AlertRow}
    (hpw : rows.Pairwise (fun a b => a.id ≠ b.id))
    {ex r : AlertRow} (hex : ex ∈ rows) (hr : r ∈ rows) (hid : r.id = ex.id) :
    r = ex := by
  induction rows with
  | nil => cases hex
  | cons a l ih =>
    have hpw' := List.pairwise_cons.mp hpw
    rcases List.mem_cons.mp hex with rfl | hex'
    · rcases List.mem_cons.mp hr with rfl | hr'
      · rfl
      · exact absurd hid.symm (hpw'.1 r hr')
    · rcases List.mem_cons.mp hr with rfl | hr'
      · exact absurd (hid ▸ rfl) (fun hh => hpw'.1 ex hex' hh)
      · exact ih hpw'.2 hex' hr'

theorem updateRowIn_id {ex updated : AlertRow} (hid : updated.id = ex.id)
    (r : AlertRow) : (updateRowIn ex updated r).id = r.id := by
  unfold updateRowIn
  by_cases h : r.id = ex.id
  · rw [if_pos h, hid, h]
  · rw [if_neg h]

theorem updateRowIn_cases {db : AlertDb}
    (hids : db.rows.Pairwise (fun a b => a.id ≠ b.id))
    {ex : AlertRow} (hexmem : ex ∈ db.rows) (updated : AlertRow)
    {r : AlertRow} (hr : r ∈ db.rows) :
    updateRowIn ex updated r = r ∨
      (r = ex ∧ updateRowIn ex updated r = updated) := by
  unfold updateRowIn
  by_cases h : r.id = ex.id
  · exact Or.inr ⟨mem_id_unique hids hexmem hr h, by rw [if_pos h]⟩
  · exact Or.inl (by rw [if_neg h])

/-- Both mutators replace one row in place; this preserves well-formedness
whenever the replacement keeps the primary key, keeps the code, and either
keeps the status or resolves the row. -/
theorem AlertDb.wf_map_update (db : AlertDb) (hwf : db.wf)
    (ex updated : AlertRow) (hexmem : ex ∈ db.rows)
    (hid : updated.id = ex.id) (hcode : updated.code = ex.code)
    (hstatus : updated.status = ex.status ∨
      updated.status = AlertStatus.resolved) :
    AlertDb.wf { db with rows := db.rows.map (updateRowIn ex updated) } := by
  obtain ⟨hbound, hids, hopen⟩ := hwf
  refine ⟨?_, ?_, ?_⟩
  · intro r hr
    obtain ⟨r₀, hr₀, hfr⟩ := List.mem_map.mp hr
    rw [← hfr, updateRowIn_id hid r₀]
    exact hbound r₀ hr₀
  · rw [List.pairwise_map]
    refine hids.imp ?_
    intro a b hab
    rw [updateRowIn_id hid a, updateRowIn_id hid b]
    exact hab
  · rw [List.pairwise_map]
    refine List.Pairwise.imp_of_mem ?_ hopen
    intro a b ha hb hab hcon
    rcases updateRowIn_cases hids hexmem updated ha with hfa | ⟨ha', hfa⟩ <;>
      rcases updateRowIn_cases hids hexmem updated hb with hfb | ⟨hb', hfb⟩
    · rw [hfa, hfb] at hcon
      exact hab hcon
    · rw [hfa, hfb] at hcon
      rcases hstatus with hs | hs
      · refine hab ⟨hcon.1, ?_, ?_⟩
        · rw [hb', ← hs]
          exact hcon.2.1
        · rw [hb', ← hcode]
          exact hcon.2.2
      · rw [hs] at hcon
        exact AlertStatus.noConfusion hcon.2.1
    · rw [hfa, hfb] at hcon
      rcases hstatus with hs | hs
      · refine hab ⟨?_, hcon.2.1, ?_⟩
        · rw [ha', ← hs]
          exact hcon.1
        · rw [ha', ← hcode]
          exact hcon.2.2
      · rw [hs] at hcon
        exact AlertStatus.noConfusion hcon.1
    · rw [hfa, hfb] at hcon
      rcases hstatus with hs | hs
      · refine hab ⟨?_, ?_, ?_⟩
        · rw [ha', ← hs]
          exact hcon.1
        · rw [hb', ← hs]
          exact hcon.2.1
        · rw [ha', hb']
      · rw [hs] at hcon
        exact AlertStatus.noConfusion hcon.1

theorem recordAlert_preserves_wf (code msg sev : String)
    (details : Option String) (now : Int) (db : AlertDb) (hwf : db.wf) :
    (recordAlert code msg sev details now db).2.wf := by
  by_cases hc : code = ""
  · simp only [recordAlert, if_pos hc]
    exact hwf
  · cases hf : findLatestOpen (normalizeCode code) db.rows with
    | some ex =>
      simp only [recordAlert, if_neg hc, hf]
      exact AlertDb.wf_map_update db hwf ex _ (findLatestOpen_mem hf).1
        rfl rfl (Or.inl rfl)
    | none =>
      obtain ⟨hbound, hids, hopen⟩ := hwf
      have hnone := findLatestOpen_none hf
      simp only [recordAlert, if_neg hc, hf]
      refine ⟨?_, ?_, ?_⟩
      · intro r hr
        rcases List.mem_append.mp hr with h | h
        · exact Nat.lt_succ_of_lt (hbound r h)
        · simp only [List.mem_singleton] at h
          rw [h]
          exact Nat.lt_succ_self _
      · rw [List.pairwise_append]
        refine ⟨hids, List.pairwise_singleton _ _, ?_⟩
        intro a ha b hb
        simp only [List.mem_singleton] at hb
        rw [hb]
        exact Nat.ne_of_lt (hbound a ha)
      · rw [List.pairwise_append]
        refine ⟨hopen, List.pairwise_singleton _ _, ?_⟩
        intro a ha b hb
        simp only [List.mem_singleton] at hb
        rw [hb]
        intro hcon
        have := hnone a ha
        simp only [isOpenFor, Bool.and_eq_false_iff,
          decide_eq_false_iff_not] at this
        rcases this with h1 | h2
        · exact h1 hcon.2.2
        · exact h2 hcon.1

theorem resolveAlert_preserves_wf (code : String) (now : Int)
    (db : AlertDb) (hwf : db.wf) : (resolveAlert code now db).2.wf := by
  by_cases hc : code = ""
  · simp only [resolveAlert, if_pos hc]
    exact hwf
  · cases hf : findLatestOpen (normalizeCode code) db.rows with
    | none =>
      simp only [resolveAlert, if_neg hc, hf]
      exact hwf
    | some row =>
      simp only [resolveAlert, if_neg hc, hf]
      exact AlertDb.wf_map_update db hwf row _ (findLatestOpen_mem hf).1
        rfl rfl (Or.inr rfl)

theorem applyAlertOps_preserves_wf (ops : List AlertOp) (db : AlertDb)
    (hwf : db.wf) : (applyAlertOps ops db).wf := by
  induction ops generalizing db with
  | nil => simpa [applyAlertOps] using hwf
  | cons op rest ih =>
    simp only [applyAlertOps, List.foldl_cons]
    refine ih (op.apply db) ?_
    cases op with
    | record code msg sev details now =>
      exact recordAlert_preserves_wf code msg sev details now db hwf
    | resolve code now => exact resolveAlert_preserves_wf code now db hwf

/-- Claim C9 (confirmed): across every sequence of raise and resolve
operations a well-formed alert table keeps at most one open record per
code; raising a code that already has an open record returns that record
updated in place with the created flag `false` and leaves the row count
unchanged, and resolving an open record returns it with status `resolved`
and `resolved_at` stamped. -/
theorem alert_open_record_unique
    (db : AlertDb) (ops : List AlertOp)
    (code msg sev : String) (details : Option String) (now : Int)
    (ex : AlertRow) (hwf : db.wf)
    (hfound : findLatestOpen (normalizeCode code) db.rows = some ex)
    (hcode : code ≠ "") :
    ((applyAlertOps ops db).rows.Pairwise (fun a b =>
      ¬(a.status = AlertStatus.opened ∧ b.status = AlertStatus.opened ∧
        a.code = b.code))) ∧
    (recordAlert code msg sev details now db).1 =
      some (recordUpdatedRow ex msg sev details now, false) ∧
    (recordAlert code msg sev details now db).2.rows.length =
      db.rows.length ∧
    (resolveAlert code now db).1 =
      some (resolveUpdatedRow ex now) := by
  refine ⟨(applyAlertOps_preserves_wf ops db hwf).2.2, ?_, ?_, ?_⟩
  · simp [recordAlert, hcode, hfound]
  · simp [recordAlert, hcode, hfound]
  · simp [resolveAlert, hcode, hfound]

/-- Claim C9 (witness): a table holding one open `errors.spike` record, a
re-raise and a resolve. -/
theorem alert_open_record_unique_witness :
    ((applyAlertOps
        [.record "errors.spike" "m2" "warning" none 8, .resolve "errors.spike" 9]
        ⟨[⟨0, "errors.spike", "m", "warning", none, .opened, 5, 5, none⟩], 1⟩).rows.Pairwise
      (fun a b =>
        ¬(a.status = AlertStatus.opened ∧ b.status = AlertStatus.opened ∧
          a.code = b.code))) ∧
    (recordAlert "errors.spike" "m2" "warning" none 8
        ⟨[⟨0, "errors.spike", "m", "warning", none, .opened, 5, 5, none⟩], 1⟩).1 =
      some (recordUpdatedRow
        ⟨0, "errors.spike", "m", "warning", none, .opened, 5, 5, none⟩
        "m2" "warning" none 8, false) ∧
    (recordAlert "errors.spike" "m2" "warning" none 8
        ⟨[⟨0, "errors.spike", "m", "warning", none, .opened, 5, 5, none⟩], 1⟩).2.rows.length =
      ([⟨0, "errors.spike", "m", "warning", none, .opened, 5, 5, none⟩] :
        List AlertRow).length ∧
    (resolveAlert "errors.spike" 8
        ⟨[⟨0, "errors.spike", "m", "warning", none, .opened, 5, 5, none⟩], 1⟩).1 =
      some (resolveUpdatedRow
        ⟨0, "errors.spike", "m", "warning", none, .opened, 5, 5, none⟩ 8) :=
  alert_open_record_unique
    ⟨[⟨0, "errors.spike", "m", "warning", none, .opened, 5, 5, none⟩], 1⟩
    [.record "errors.spike" "m2" "warning" none 8, .resolve "errors.spike" 9]
    "errors.spike" "m2" "warning" none 8
    ⟨0, "errors.spike", "m", "warning", none, .opened, 5, 5, none⟩
    (by refine ⟨?_, ?_, ?_⟩ <;> decide) (by decide) (by decide)

end TgBot
